import Mathlib

/-!
Verification of `allensdk/brain_observatory/behavior/swdb/behavior_project_cache.py`.

Shallow embedding: pandas DataFrames of trials and stimulus presentations become
lists of records, timestamps become rationals, NaN/None entries become `Option`,
and a Python exception becomes an `Option`/`Except` result.
-/

namespace BehaviorProjectCachePy

/-- One row of the stimulus_presentations table, as used by `get_trials`
(only the `start_time` column is read there). -/
structure StimRow where
  start_time : ℚ
  deriving Repr, DecidableEq

/-- One row of the raw trials table returned by the superclass
`get_trials`, restricted to the columns that `ExtendedNwbApi.get_trials`
reads, writes, or selects into its output.  `change_time`,
`response_latency` and `reward_time` can be NaN in the source, embedded
as `Option`. -/
structure TrialRow where
  initial_image_name : String
  change_image_name : String
  change_time : Option ℚ
  lick_times : List ℚ
  response_latency : Option ℚ
  reward_time : Option ℚ
  go : Bool
  «catch» : Bool
  hit : Bool
  miss : Bool
  false_alarm : Bool
  correct_reject : Bool
  aborted : Bool
  auto_rewarded : Bool
  reward_volume : ℚ
  start_time : ℚ
  stop_time : ℚ
  trial_length : ℚ
  deriving Repr, DecidableEq

/-- A row of the table returned by `ExtendedNwbApi.get_trials`: the
(patched) trial columns plus the derived `response_binary` column.
(The `reward_rate` column, produced by the external
`calculate_reward_rate` helper outside this file, is not modelled.) -/
structure OutTrialRow extends TrialRow where
  response_binary : Bool
  deriving Repr, DecidableEq

/-- `get_next_flash` from `get_trials`:
`stimulus_presentations.query('start_time >= @timestamp')` keeps table
order, and `.iloc[0]['start_time']` takes the first remaining row. -/
def get_next_flash (stimulus_presentations : List StimRow) (timestamp : ℚ) : Option ℚ :=
  match stimulus_presentations.filter (fun s => decide (timestamp ≤ s.start_time)) with
  | [] => none
  | q :: _ => some q.start_time

/-- The change-time patch applied to one entry by
`trials['change_time'].map(lambda x: get_next_flash(x))`.  When the
original change_time is NaN, `start_time >= NaN` is false for every row,
so the query is empty and the patched value is None. -/
def patch_change_time (stimulus_presentations : List StimRow) (x : Option ℚ) : Option ℚ :=
  match x with
  | none => none
  | some t => get_next_flash stimulus_presentations t

/-- Line 233: the map over the change_time column. -/
def patch_trials (stimulus_presentations : List StimRow) (trials : List TrialRow) :
    List TrialRow :=
  trials.map (fun tr => { tr with change_time := patch_change_time stimulus_presentations tr.change_time })

/-- Line 241: `trials[np.logical_not(trials['stop_time'] > last_stimulus_presentation)]`. -/
def drop_uncovered_trials (last_stimulus_presentation : ℚ) (trials : List TrialRow) :
    List TrialRow :=
  trials.filter (fun tr => ! decide (last_stimulus_presentation < tr.stop_time))

/-- Lines 244-248.  The source guard is
`len(row['lick_times'] > 0) and not pd.isnull(row['change_time'])`:
`row['lick_times'] > 0` is an elementwise comparison, so its `len` is the
number of lick times, truthy iff there is at least one lick; the value
returned in that case is `row['lick_times'][0] - row['change_time']`,
otherwise NaN. -/
def recalculate_response_latency (row : TrialRow) : Option ℚ :=
  match row.lick_times, row.change_time with
  | l :: _, some change_time => some (l - change_time)
  | _, _ => none

/-- Line 249: `trials.apply(recalculate_response_latency, axis=1)` written
back into the `response_latency` column. -/
def recalc_latency_trials (trials : List TrialRow) : List TrialRow :=
  trials.map (fun tr => { tr with response_latency := recalculate_response_latency tr })

/-- Lines 257-258: `trials.query('not aborted')` when
`filter_aborted_trials` is set. -/
def filter_aborted (filter_aborted_trials : Bool) (trials : List TrialRow) : List TrialRow :=
  if filter_aborted_trials then trials.filter (fun tr => ! tr.aborted) else trials

/-- Lines 291-294: `trials['response_binary'] = np.logical_or(hit, fa)`.
(The column re-selection of lines 261-280 keeps exactly the `TrialRow`
fields, so it is the identity on this embedding.) -/
def add_response_binary (trials : List TrialRow) : List OutTrialRow :=
  trials.map (fun tr => { tr with response_binary := tr.hit || tr.false_alarm })

/-- `ExtendedNwbApi.get_trials`, as a function of the two raw tables
fetched from the superclass API.  `stimulus_presentations.iloc[-1]`
raises IndexError on an empty table, embedded as `none`. -/
def get_trials (stimulus_presentations : List StimRow) (trials : List TrialRow)
    (filter_aborted_trials : Bool) : Option (List OutTrialRow) :=
  let trials1 := patch_trials stimulus_presentations trials
  match stimulus_presentations.getLast? with
  | none => none
  | some lastRow =>
    let trials2 := drop_uncovered_trials lastRow.start_time trials1
    let trials3 := recalc_latency_trials trials2
    let trials4 := filter_aborted filter_aborted_trials trials3
    some (add_response_binary trials4)

/-! ### Column-level model of DataFrames, for `get_stimulus_presentations` -/

/-- A DataFrame abstracted to its index name and ordered column names. -/
structure ColDF where
  index_name : String
  columns : List String
  deriving Repr, DecidableEq

/-- `df.drop(columns=cols)`: KeyError (`none`) if a requested label is
absent, otherwise the labelled columns are removed. -/
def df_drop (df : ColDF) (cols : List String) : Option ColDF :=
  if cols.all (fun c => df.columns.contains c) then
    some ⟨df.index_name, df.columns.filter (fun c => ! cols.contains c)⟩
  else none

/-- `a.join(b)` with default arguments: joins on the index, keeping the
caller index name; overlapping column names raise (`none`) because no
suffix is configured. -/
def df_join (a b : ColDF) : Option ColDF :=
  if a.columns.all (fun c => ! b.columns.contains c) then
    some ⟨a.index_name, a.columns ++ b.columns⟩
  else none

/-- `df[[c1, ..., cn]]`: KeyError (`none`) if a requested column is
absent, otherwise exactly the requested columns in the requested order. -/
def df_select (df : ColDF) (cols : List String) : Option ColDF :=
  if cols.all (fun c => df.columns.contains c) then
    some ⟨df.index_name, cols⟩
  else none

/-- `df.rename(columns=mapping)`: labels in the mapping are replaced,
other labels are untouched. -/
def df_rename_columns (df : ColDF) (mapping : List (String × String)) : ColDF :=
  ⟨df.index_name, df.columns.map (fun c =>
    match mapping.lookup c with
    | some c2 => c2
    | none => c)⟩

/-- `df[c] = value`: assigning a column keeps the schema when the label
exists and appends the label otherwise. -/
def df_assign_column (df : ColDF) (c : String) : ColDF :=
  if df.columns.contains c then df else ⟨df.index_name, df.columns ++ [c]⟩

/-- `df.index.rename(name, inplace=True)`. -/
def df_rename_index (df : ColDF) (name : String) : ColDF :=
  ⟨name, df.columns⟩

/-- The 18 columns selected on lines 305-324, in source order. -/
def stimulus_presentations_selection : List String :=
  ["image_name", "image_index", "start_time", "stop_time", "omitted", "change",
   "duration", "licks", "rewards", "running_speed", "index", "time_from_last_lick",
   "time_from_last_reward", "time_from_last_change", "block_index",
   "image_block_repetition", "repeat_within_block", "image_set"]

/-- `ExtendedNwbApi.get_stimulus_presentations` at the column level, as a
function of the raw table from the superclass and the extended table from
the analysis HDF5 file (lines 298-334).  The `image_set` assignment on
line 331 only rewrites values of an already-selected column. -/
def get_stimulus_presentations (raw extended : ColDF) : Option ColDF :=
  match df_drop extended ["omitted"] with
  | none => none
  | some extended2 =>
    match df_join raw extended2 with
    | none => none
    | some joined =>
      match df_select joined stimulus_presentations_selection with
      | none => none
      | some selected =>
        let renamed := df_rename_columns selected
          [("index", "absolute_flash_number"), ("running_speed", "mean_running_speed")]
        let assigned := df_assign_column renamed "image_set"
        some (df_rename_index assigned "flash_id")

/-! ### `BehaviorProjectCache` construction and error propagation -/

/-- The errors the constructor path can raise: a missing file
(`FileNotFoundError` from `open`/`read_csv`) or a missing dict key
(`KeyError` from `cache_paths[...]`). -/
inductive PyError where
  | fileNotFound (path : String)
  | keyError (key : String)
  deriving Repr, DecidableEq

/-- `open(path)` followed by `json.load` over a filesystem mapping paths
to parsed JSON contents: a missing file raises FileNotFoundError. -/
def open_json {α : Type} (fs : String → Option α) (path : String) : Except PyError α :=
  match fs path with
  | some contents => Except.ok contents
  | none => Except.error (PyError.fileNotFound path)

/-- `BehaviorProjectCache.get_analysis_files_metadata` (lines 83-86):
open the file, parse it, return it — no recovery of any kind. -/
def get_analysis_files_metadata {α : Type} (fs : String → Option α) (path : String) :
    Except PyError α :=
  open_json fs path

/-- The cache object: columns of the manifest kept abstract (`μ`),
metadata JSON abstract (`α`), `analysis_files_metadata` possibly None. -/
structure BehaviorProjectCache (μ α : Type) where
  manifest : μ
  nwb_base_dir : String
  analysis_files_base_dir : String
  analysis_files_metadata : Option α
  deriving Repr, DecidableEq

/-- `BehaviorProjectCache.__init__` (lines 26-81) as a function of the
CSV filesystem, the JSON filesystem and the `cache_paths` dict (a finite
map from key to path).  A missing dict key for the manifest or the base
dirs raises KeyError; a missing manifest file raises FileNotFoundError
from `read_csv`; a missing `analysis_files_metadata_path` KEY only prints
a warning and stores None; a present key whose FILE is missing propagates
the FileNotFoundError from `get_analysis_files_metadata`. -/
def BehaviorProjectCache.init {μ α : Type} (csv_fs : String → Option μ)
    (json_fs : String → Option α) (cache_paths : String → Option String) :
    Except PyError (BehaviorProjectCache μ α) :=
  match cache_paths "manifest_path" with
  | none => Except.error (PyError.keyError "manifest_path")
  | some manifest_path =>
    match csv_fs manifest_path with
    | none => Except.error (PyError.fileNotFound manifest_path)
    | some manifest =>
      match cache_paths "nwb_base_dir" with
      | none => Except.error (PyError.keyError "nwb_base_dir")
      | some nwb_base_dir =>
        match cache_paths "analysis_files_base_dir" with
        | none => Except.error (PyError.keyError "analysis_files_base_dir")
        | some analysis_files_base_dir =>
          match cache_paths "analysis_files_metadata_path" with
          | some p =>
            match get_analysis_files_metadata json_fs p with
            | Except.ok metadata =>
              Except.ok ⟨manifest, nwb_base_dir, analysis_files_base_dir, some metadata⟩
            | Except.error e => Except.error e
          | none =>
            Except.ok ⟨manifest, nwb_base_dir, analysis_files_base_dir, none⟩

/-- `BehaviorProjectCache.from_json` (lines 138-145): open the JSON file
(propagating FileNotFoundError unchanged), then construct the cache from
the decoded `cache_paths` dict. -/
def BehaviorProjectCache.from_json {μ α : Type} (csv_fs : String → Option μ)
    (json_fs : String → Option α) (paths_fs : String → Option (String → Option String))
    (json_path : String) : Except PyError (BehaviorProjectCache μ α) :=
  match paths_fs json_path with
  | some cache_json => BehaviorProjectCache.init csv_fs json_fs cache_json
  | none => Except.error (PyError.fileNotFound json_path)

/-! ### `get_task_parameters` override -/

/-- A task-parameter value: the dict mixes numbers and strings. -/
inductive TaskValue where
  | num (q : ℚ)
  | str (s : String)
  deriving Repr, DecidableEq

/-- Python dict assignment `d[k] = v`. -/
def dict_set (d : String → Option TaskValue) (k : String) (v : TaskValue) :
    String → Option TaskValue :=
  fun k2 => if k2 = k then some v else d k2

/-- `ExtendedNwbApi.get_task_parameters` (lines 179-188) as a function of
the superclass result: hard-codes `omitted_flash_fraction = 0.05` and
`stimulus_duration_sec = 0.25`. -/
def get_task_parameters (task_parameters : String → Option TaskValue) :
    String → Option TaskValue :=
  dict_set (dict_set task_parameters "omitted_flash_fraction" (TaskValue.num (0.05 : ℚ)))
    "stimulus_duration_sec" (TaskValue.num (0.25 : ℚ))

/-! ### Lazy memoization of session attributes -/

/-- Modelled from the spec: `allensdk.core.lazy_property.LazyProperty` is
imported, not defined under `src/`.  The spec says the session exposes
attributes that "access the data only on the first demand, and then
memoize the result for reuse".  The state carries the loader, the cached
value, and how many times the loader has run. -/
structure LazyProperty (α : Type) where
  calculate : Unit → α
  cached : Option α
  call_count : Nat

/-- Constructing a LazyProperty (as in `__init__`) stores the loader
without calling it. -/
def LazyProperty.mk_new {α : Type} (calculate : Unit → α) : LazyProperty α :=
  ⟨calculate, none, 0⟩

/-- One attribute access: return the cached value if present, otherwise
run the loader once, cache and return its result. -/
def LazyProperty.access {α : Type} (p : LazyProperty α) : α × LazyProperty α :=
  match p.cached with
  | some v => (v, p)
  | none =>
    let v := p.calculate ()
    (v, ⟨p.calculate, some v, p.call_count + 1⟩)

/-- `n` consecutive accesses, keeping the final state. -/
def LazyProperty.accessN {α : Type} (p : LazyProperty α) : Nat → LazyProperty α
  | 0 => p
  | n + 1 => (LazyProperty.accessN p n).access.2

/-- The derived attributes installed by `ExtendedBehaviorSession.__init__`
(lines 421-428), with the three loader result types abstract. -/
structure ExtendedBehaviorSession (α β γ : Type) where
  trial_response_df : LazyProperty α
  flash_response_df : LazyProperty β
  image_index : LazyProperty γ

/-- `ExtendedBehaviorSession.__init__`: wraps the three loaders in fresh
LazyProperty cells. -/
def ExtendedBehaviorSession.init {α β γ : Type} (get_trial_response_df : Unit → α)
    (get_flash_response_df : Unit → β) (get_image_index : Unit → γ) :
    ExtendedBehaviorSession α β γ :=
  ⟨LazyProperty.mk_new get_trial_response_df, LazyProperty.mk_new get_flash_response_df,
   LazyProperty.mk_new get_image_index⟩

/-! ### Concrete sample data used to instantiate the theorems -/

/-- A stimulus table sorted by start_time (the chronological case). -/
def sampleStim : List StimRow := [⟨2⟩, ⟨3⟩]

/-- A stimulus table NOT sorted by start_time. -/
def cexStim : List StimRow := [⟨5⟩, ⟨3⟩]

/-- A raw trial: original change_time 1, one lick at 4, a hit. -/
def sampleTrial : TrialRow :=
  { initial_image_name := "im0", change_image_name := "im1", change_time := some 1,
    lick_times := [4], response_latency := some 100, reward_time := none,
    go := true, «catch» := false, hit := true, miss := false, false_alarm := false,
    correct_reject := false, aborted := false, auto_rewarded := false,
    reward_volume := 0, start_time := 0, stop_time := 2, trial_length := 2 }

/-- `sampleTrial` after the change-time patch against `sampleStim`. -/
def patchedSampleTrial : TrialRow :=
  { sampleTrial with change_time := some 2 }

/-- `sampleTrial` as it stands at the assert of lines 252-254 (patched
change_time and recomputed response_latency). -/
def recalcSampleTrial : TrialRow :=
  { sampleTrial with change_time := some 2, response_latency := some 2 }

/-- The row `get_trials sampleStim [sampleTrial] true` returns. -/
def sampleOutRow : OutTrialRow :=
  { toTrialRow := recalcSampleTrial, response_binary := true }

/-- Columns of a sample raw stimulus table from the superclass API. -/
def sampleRawStimDF : ColDF :=
  ⟨"", ["image_name", "image_index", "start_time", "stop_time", "omitted", "duration"]⟩

/-- Columns of a sample extended stimulus table from the analysis file. -/
def sampleExtendedStimDF : ColDF :=
  ⟨"", ["omitted", "change", "licks", "rewards", "running_speed", "index",
        "time_from_last_lick", "time_from_last_reward", "time_from_last_change",
        "block_index", "image_block_repetition", "repeat_within_block", "image_set"]⟩

/-- The schema `get_stimulus_presentations` produces on the sample input. -/
def sampleStimDFOut : ColDF :=
  ⟨"flash_id",
   ["image_name", "image_index", "start_time", "stop_time", "omitted", "change",
    "duration", "licks", "rewards", "mean_running_speed", "absolute_flash_number",
    "time_from_last_lick", "time_from_last_reward", "time_from_last_change",
    "block_index", "image_block_repetition", "repeat_within_block", "image_set"]⟩

/-- A sample CSV filesystem holding one manifest file. -/
def sample_csv_fs : String → Option Nat :=
  fun p => if p = "/data/manifest.csv" then some 1 else none

/-- A sample JSON filesystem holding no files at all. -/
def sample_json_fs : String → Option Nat := fun _ => none

/-- A `cache_paths` dict without the `analysis_files_metadata_path` key. -/
def sample_cache_paths : String → Option String := fun k =>
  if k = "manifest_path" then some "/data/manifest.csv"
  else if k = "nwb_base_dir" then some "/data/nwb"
  else if k = "analysis_files_base_dir" then some "/data/analysis"
  else none

/-! ### Helper lemmas -/

theorem get_next_flash_cons_pos {s0 : StimRow} {rest : List StimRow} {t : ℚ}
    (ht : t ≤ s0.start_time) :
    get_next_flash (s0 :: rest) t = some s0.start_time := by
  simp [get_next_flash, List.filter_cons, ht]

theorem get_next_flash_cons_neg {s0 : StimRow} {rest : List StimRow} {t : ℚ}
    (ht : ¬ t ≤ s0.start_time) :
    get_next_flash (s0 :: rest) t = get_next_flash rest t := by
  simp [get_next_flash, List.filter_cons, ht]

theorem get_next_flash_mem {stim : List StimRow} {t c : ℚ}
    (h : get_next_flash stim t = some c) : c ∈ stim.map StimRow.start_time := by
  unfold get_next_flash at h
  cases hf : stim.filter fun s => decide (t ≤ s.start_time) with
  | nil => rw [hf] at h; exact Option.noConfusion h
  | cons q rest =>
    rw [hf] at h
    have hq : q ∈ stim :=
      List.mem_of_mem_filter (by rw [hf]; exact List.mem_cons_self q rest)
    have hqc : q.start_time = c := Option.some.inj h
    exact hqc ▸ List.mem_map_of_mem StimRow.start_time hq

theorem get_next_flash_min {stim : List StimRow} {t c : ℚ}
    (hsorted : stim.Pairwise fun a b => a.start_time ≤ b.start_time)
    (h : get_next_flash stim t = some c) :
    t ≤ c ∧ ∀ s ∈ stim, t ≤ s.start_time → c ≤ s.start_time := by
  induction stim with
  | nil => exact Option.noConfusion h
  | cons s0 rest ih =>
    rw [List.pairwise_cons] at hsorted
    by_cases ht : t ≤ s0.start_time
    · rw [get_next_flash_cons_pos ht] at h
      have hc : s0.start_time = c := Option.some.inj h
      subst hc
      refine ⟨ht, ?_⟩
      intro s hs _
      rcases List.mem_cons.mp hs with rfl | hs2
      · exact le_refl _
      · exact hsorted.1 s hs2
    · rw [get_next_flash_cons_neg ht] at h
      obtain ⟨htc, hmin⟩ := ih hsorted.2 h
      refine ⟨htc, ?_⟩
      intro s hs hts
      rcases List.mem_cons.mp hs with rfl | hs2
      · exact absurd hts ht
      · exact hmin s hs2 hts

theorem get_next_flash_eq_none_iff {stim : List StimRow} {t : ℚ} :
    get_next_flash stim t = none ↔ ∀ s ∈ stim, ¬ t ≤ s.start_time := by
  induction stim with
  | nil => simp [get_next_flash]
  | cons s0 rest ih =>
    by_cases ht : t ≤ s0.start_time
    · rw [get_next_flash_cons_pos ht]
      simp only [List.mem_cons]
      constructor
      · intro h; exact Option.noConfusion h
      · intro h; exact absurd ht (h s0 (Or.inl rfl))
    · rw [get_next_flash_cons_neg ht]
      simp only [List.mem_cons, ih]
      constructor
      · intro h s hs
        rcases hs with rfl | hs2
        · exact ht
        · exact h s hs2
      · intro h s hs2; exact h s (Or.inr hs2)

theorem mem_patch_trials {stim : List StimRow} {trials : List TrialRow} {tr : TrialRow}
    (h : tr ∈ patch_trials stim trials) :
    ∃ raw ∈ trials,
      tr = { raw with change_time := patch_change_time stim raw.change_time } := by
  obtain ⟨raw, hraw, heq⟩ := List.mem_map.mp h
  exact ⟨raw, hraw, heq.symm⟩

theorem mem_drop_uncovered {last : ℚ} {trials : List TrialRow} {tr : TrialRow} :
    tr ∈ drop_uncovered_trials last trials ↔ tr ∈ trials ∧ ¬ last < tr.stop_time := by
  simp [drop_uncovered_trials, List.mem_filter]

theorem mem_recalc_latency {trials : List TrialRow} {tr : TrialRow}
    (h : tr ∈ recalc_latency_trials trials) :
    ∃ b ∈ trials, tr = { b with response_latency := recalculate_response_latency b } := by
  obtain ⟨b, hb, heq⟩ := List.mem_map.mp h
  exact ⟨b, hb, heq.symm⟩

theorem recalculate_congr {a b : TrialRow} (hl : a.lick_times = b.lick_times)
    (hc : a.change_time = b.change_time) :
    recalculate_response_latency a = recalculate_response_latency b := by
  unfold recalculate_response_latency
  rw [hl, hc]

theorem recalc_latency_self {trials : List TrialRow} {tr : TrialRow}
    (h : tr ∈ recalc_latency_trials trials) :
    tr.response_latency = recalculate_response_latency tr := by
  obtain ⟨b, _, rfl⟩ := mem_recalc_latency h
  exact (recalculate_congr rfl rfl).symm

theorem get_trials_getLast? {stim : List StimRow} {trials : List TrialRow} {b : Bool}
    {out : List OutTrialRow} (hout : get_trials stim trials b = some out) :
    ∃ lastRow, stim.getLast? = some lastRow := by
  unfold get_trials at hout
  cases h : stim.getLast? with
  | none => rw [h] at hout; exact Option.noConfusion hout
  | some lastRow => exact ⟨lastRow, rfl⟩

theorem get_trials_eq_some {stim : List StimRow} {trials : List TrialRow} {b : Bool}
    {out : List OutTrialRow} {lastRow : StimRow}
    (hlast : stim.getLast? = some lastRow)
    (hout : get_trials stim trials b = some out) :
    out = add_response_binary (filter_aborted b (recalc_latency_trials
      (drop_uncovered_trials lastRow.start_time (patch_trials stim trials)))) := by
  unfold get_trials at hout
  rw [hlast] at hout
  exact (Option.some.inj hout).symm

theorem mem_get_trials {stim : List StimRow} {trials : List TrialRow} {b : Bool}
    {out : List OutTrialRow} {lastRow : StimRow}
    (hlast : stim.getLast? = some lastRow)
    (hout : get_trials stim trials b = some out)
    {tr : OutTrialRow} (htr : tr ∈ out) :
    ∃ b3 ∈ recalc_latency_trials (drop_uncovered_trials lastRow.start_time
        (patch_trials stim trials)),
      tr = { b3 with response_binary := b3.hit || b3.false_alarm } := by
  rw [get_trials_eq_some hlast hout] at htr
  obtain ⟨b4, hb4, heq⟩ := List.mem_map.mp htr
  refine ⟨b4, ?_, heq.symm⟩
  unfold filter_aborted at hb4
  cases b with
  | true =>
    have hb4b : b4 ∈ recalc_latency_trials (drop_uncovered_trials lastRow.start_time
        (patch_trials stim trials)) ∧ b4.aborted = false := by simpa using hb4
    exact hb4b.1
  | false => simpa using hb4

theorem sample_get_trials_eq :
    get_trials sampleStim [sampleTrial] true = some [sampleOutRow] := by
  norm_num [get_trials, patch_trials, patch_change_time, get_next_flash,
    drop_uncovered_trials, recalc_latency_trials, recalculate_response_latency,
    filter_aborted, add_response_binary, sampleStim, sampleTrial, sampleOutRow,
    recalcSampleTrial, List.filter]

theorem sample_recalc_mem :
    recalcSampleTrial ∈ recalc_latency_trials (drop_uncovered_trials
      (StimRow.mk 3).start_time (patch_trials sampleStim [sampleTrial])) := by
  norm_num [patch_trials, patch_change_time, get_next_flash,
    drop_uncovered_trials, recalc_latency_trials, recalculate_response_latency,
    sampleStim, sampleTrial, recalcSampleTrial, List.filter]

/-! ### Claim theorems -/

/-- C1 (amended): in `get_trials`, the timing patch replaces every trial
change_time with the start_time of the FIRST (in table order) stimulus
presentation whose start_time is greater than or equal to the original
change_time, and with null if no such presentation exists (or the
original change_time was already null).  When the stimulus table is
sorted ascending by start_time, that value is the minimum start_time
that is greater than or equal to the original change_time. -/
theorem c1_change_time_patch (stim : List StimRow) (trials : List TrialRow)
    (hsorted : stim.Pairwise fun a b => a.start_time ≤ b.start_time) :
    ∀ tr ∈ patch_trials stim trials, ∃ raw ∈ trials,
      tr.change_time = patch_change_time stim raw.change_time ∧
      (∀ t0, raw.change_time = some t0 →
        (tr.change_time = none ↔ ∀ s ∈ stim, ¬ t0 ≤ s.start_time) ∧
        ∀ c, tr.change_time = some c →
          c ∈ stim.map StimRow.start_time ∧ t0 ≤ c ∧
          ∀ s ∈ stim, t0 ≤ s.start_time → c ≤ s.start_time) ∧
      (raw.change_time = none → tr.change_time = none) := by
  intro tr htr
  obtain ⟨raw, hraw, rfl⟩ := mem_patch_trials htr
  refine ⟨raw, hraw, rfl, ?_, ?_⟩
  · intro t0 ht0
    have hct : ({ raw with change_time := patch_change_time stim raw.change_time } :
        TrialRow).change_time = get_next_flash stim t0 := by
      show patch_change_time stim raw.change_time = _
      rw [ht0]
      rfl
    rw [hct]
    constructor
    · exact get_next_flash_eq_none_iff
    · intro c hc
      obtain ⟨h1, h2⟩ := get_next_flash_min hsorted hc
      exact ⟨get_next_flash_mem hc, h1, h2⟩
  · intro hnone
    show patch_change_time stim raw.change_time = none
    rw [hnone]
    rfl

/-- C1 counterexample: on a stimulus table that is not sorted by
start_time, the trial with original change_time 1 comes back from
`get_trials` with change_time 5, although 3 is also a stimulus
start_time with 1 <= 3 and 3 < 5 — so the returned change_time is NOT
the minimum start_time that is >= the original change_time. -/
theorem c1_counterexample :
    (get_trials cexStim [sampleTrial] true).map (fun l => l.map fun tr => tr.change_time)
        = some [some 5] ∧
    sampleTrial.change_time = some 1 ∧
    (3 : ℚ) ∈ cexStim.map StimRow.start_time ∧
    (1 : ℚ) ≤ 3 ∧ (3 : ℚ) < 5 := by
  refine ⟨by decide, by decide, by decide, by norm_num, by norm_num⟩

/-- C1 witness: the amended theorem applied to the sorted sample table. -/
theorem c1_witness :
    ∃ raw ∈ [sampleTrial],
      patchedSampleTrial.change_time = patch_change_time sampleStim raw.change_time ∧
      (∀ t0, raw.change_time = some t0 →
        (patchedSampleTrial.change_time = none ↔
          ∀ s ∈ sampleStim, ¬ t0 ≤ s.start_time) ∧
        ∀ c, patchedSampleTrial.change_time = some c →
          c ∈ sampleStim.map StimRow.start_time ∧ t0 ≤ c ∧
          ∀ s ∈ sampleStim, t0 ≤ s.start_time → c ≤ s.start_time) ∧
      (raw.change_time = none → patchedSampleTrial.change_time = none) :=
  c1_change_time_patch sampleStim [sampleTrial] (by decide) patchedSampleTrial (by decide)

/-- C2: after the change-time patch, every returned trial has
response_latency equal to its first lick time minus its (patched)
change_time when both exist, and null (NaN) when the trial has no lick
times or a null change_time. -/
theorem c2_response_latency (stim : List StimRow) (trials : List TrialRow) (b : Bool)
    (out : List OutTrialRow) (hout : get_trials stim trials b = some out)
    (tr : OutTrialRow) (htr : tr ∈ out) :
    (∀ l ls c, tr.lick_times = l :: ls → tr.change_time = some c →
      tr.response_latency = some (l - c)) ∧
    ((tr.lick_times = [] ∨ tr.change_time = none) → tr.response_latency = none) := by
  obtain ⟨lastRow, hlast⟩ := get_trials_getLast? hout
  obtain ⟨b3, hb3, rfl⟩ := mem_get_trials hlast hout htr
  have hchar : b3.response_latency = recalculate_response_latency b3 :=
    recalc_latency_self hb3
  constructor
  · intro l ls c hl hc
    have hl2 : b3.lick_times = l :: ls := hl
    have hc2 : b3.change_time = some c := hc
    show b3.response_latency = some (l - c)
    rw [hchar]
    unfold recalculate_response_latency
    rw [hl2, hc2]
  · intro hor
    show b3.response_latency = none
    rw [hchar]
    unfold recalculate_response_latency
    rcases hor with hl | hc
    · have hl2 : b3.lick_times = [] := hl
      rw [hl2]
    · have hc2 : b3.change_time = none := hc
      rw [hc2]
      cases b3.lick_times with
      | nil => rfl
      | cons l ls => rfl

/-- C2 witness: the sample trial has first lick 4 and patched
change_time 2, so its returned response_latency is 4 - 2. -/
theorem c2_witness : sampleOutRow.response_latency = some ((4 : ℚ) - 2) :=
  (c2_response_latency sampleStim [sampleTrial] true [sampleOutRow] sample_get_trials_eq
    sampleOutRow (by simp)).1 4 [] 2 (by decide) (by decide)

/-- C3: every trial returned by `get_trials` has
response_binary = hit OR false_alarm. -/
theorem c3_response_binary (stim : List StimRow) (trials : List TrialRow) (b : Bool)
    (out : List OutTrialRow) (hout : get_trials stim trials b = some out) :
    ∀ tr ∈ out, tr.response_binary = (tr.hit || tr.false_alarm) := by
  obtain ⟨lastRow, hlast⟩ := get_trials_getLast? hout
  intro tr htr
  obtain ⟨b3, _, rfl⟩ := mem_get_trials hlast hout htr
  rfl

/-- C3 witness: the sample returned trial is a hit, and its
response_binary is true. -/
theorem c3_witness : sampleOutRow.response_binary = (sampleOutRow.hit || sampleOutRow.false_alarm) :=
  c3_response_binary sampleStim [sampleTrial] true [sampleOutRow] sample_get_trials_eq
    sampleOutRow (by simp)

/-- C4: a (patched) trial survives the drop step iff its stop_time is
not strictly greater than the start_time of the last stimulus
presentation, and consequently every trial returned by `get_trials` has
stop_time less than or equal to that start_time. -/
theorem c4_drop_uncovered (stim : List StimRow) (trials : List TrialRow) (b : Bool)
    (out : List OutTrialRow) (lastRow : StimRow)
    (hlast : stim.getLast? = some lastRow)
    (hout : get_trials stim trials b = some out) :
    (∀ tr, tr ∈ drop_uncovered_trials lastRow.start_time (patch_trials stim trials) ↔
      tr ∈ patch_trials stim trials ∧ ¬ lastRow.start_time < tr.stop_time) ∧
    ∀ tr ∈ out, tr.stop_time ≤ lastRow.start_time := by
  constructor
  · intro tr; exact mem_drop_uncovered
  · intro tr htr
    obtain ⟨b3, hb3, rfl⟩ := mem_get_trials hlast hout htr
    obtain ⟨b2, hb2, rfl⟩ := mem_recalc_latency hb3
    exact not_lt.mp (mem_drop_uncovered.mp hb2).2

/-- C4 witness: the sample returned trial has stop_time 2, below the
last sample stimulus start_time 3. -/
theorem c4_witness : sampleOutRow.stop_time ≤ (3 : ℚ) :=
  (c4_drop_uncovered sampleStim [sampleTrial] true [sampleOutRow] ⟨3⟩ (by decide)
    sample_get_trials_eq).2 sampleOutRow (by simp)

/-- C9: the assert of lines 252-254 is valid — at that point of
`get_trials` (after the patch, the drop and the latency recomputation),
every trial with a non-null change_time has its change_time among the
start_time values of the stimulus_presentations table, for ANY input
tables.  (No sortedness assumption is needed.) -/
theorem c9_assert_valid (stim : List StimRow) (trials : List TrialRow) (lastRow : StimRow)
    (_hlast : stim.getLast? = some lastRow) :
    ∀ tr ∈ recalc_latency_trials (drop_uncovered_trials lastRow.start_time
        (patch_trials stim trials)),
      ∀ c, tr.change_time = some c → c ∈ stim.map StimRow.start_time := by
  intro tr htr c hc
  obtain ⟨b2, hb2, rfl⟩ := mem_recalc_latency htr
  have hb2p : b2 ∈ patch_trials stim trials := (mem_drop_uncovered.mp hb2).1
  obtain ⟨raw, _, rfl⟩ := mem_patch_trials hb2p
  have hc2 : patch_change_time stim raw.change_time = some c := hc
  unfold patch_change_time at hc2
  cases hr : raw.change_time with
  | none => rw [hr] at hc2; exact Option.noConfusion hc2
  | some t0 => rw [hr] at hc2; exact get_next_flash_mem hc2

/-- C9 witness: the sample trial at the assert point has change_time 2,
which is a start_time of the sample stimulus table. -/
theorem c9_witness : (2 : ℚ) ∈ sampleStim.map StimRow.start_time :=
  c9_assert_valid sampleStim [sampleTrial] ⟨3⟩ (by decide) recalcSampleTrial
    sample_recalc_mem 2 (by decide)

/-- C5 helper: after at least one access, a fresh LazyProperty holds the
loader result with the loader having run exactly once. -/
theorem lazyProperty_accessN_fresh {α : Type} (f : Unit → α) (n : Nat) :
    (LazyProperty.mk_new f).accessN (n + 1) = ⟨f, some (f ()), 1⟩ := by
  induction n with
  | zero => rfl
  | succ n ih =>
    show ((LazyProperty.mk_new f).accessN (n + 1)).access.2 = _
    rw [ih]
    rfl

theorem lazyProperty_spec {α : Type} (f : Unit → α) :
    (LazyProperty.mk_new f).call_count = 0 ∧
    (∀ n, ((LazyProperty.mk_new f).accessN n).access.1 = f ()) ∧
    (∀ n, ((LazyProperty.mk_new f).accessN (n + 1)).call_count = 1) := by
  refine ⟨rfl, ?_, ?_⟩
  · intro n
    cases n with
    | zero => rfl
    | succ n => rw [lazyProperty_accessN_fresh]; rfl
  · intro n
    rw [lazyProperty_accessN_fresh]

/-- C5: for each derived attribute installed by
`ExtendedBehaviorSession.__init__` (trial_response_df, flash_response_df,
image_index), the loader has not run at construction (call_count 0),
every access — first or later — returns the loader result, and after the
first access the loader has run exactly once no matter how many further
accesses happen. -/
theorem c5_lazy_memoization {α β γ : Type} (get_trial_response_df : Unit → α)
    (get_flash_response_df : Unit → β) (get_image_index : Unit → γ) :
    ((ExtendedBehaviorSession.init get_trial_response_df get_flash_response_df
        get_image_index).trial_response_df.call_count = 0 ∧
      (∀ n, ((ExtendedBehaviorSession.init get_trial_response_df get_flash_response_df
        get_image_index).trial_response_df.accessN n).access.1 = get_trial_response_df ()) ∧
      (∀ n, ((ExtendedBehaviorSession.init get_trial_response_df get_flash_response_df
        get_image_index).trial_response_df.accessN (n + 1)).call_count = 1)) ∧
    ((ExtendedBehaviorSession.init get_trial_response_df get_flash_response_df
        get_image_index).flash_response_df.call_count = 0 ∧
      (∀ n, ((ExtendedBehaviorSession.init get_trial_response_df get_flash_response_df
        get_image_index).flash_response_df.accessN n).access.1 = get_flash_response_df ()) ∧
      (∀ n, ((ExtendedBehaviorSession.init get_trial_response_df get_flash_response_df
        get_image_index).flash_response_df.accessN (n + 1)).call_count = 1)) ∧
    ((ExtendedBehaviorSession.init get_trial_response_df get_flash_response_df
        get_image_index).image_index.call_count = 0 ∧
      (∀ n, ((ExtendedBehaviorSession.init get_trial_response_df get_flash_response_df
        get_image_index).image_index.accessN n).access.1 = get_image_index ()) ∧
      (∀ n, ((ExtendedBehaviorSession.init get_trial_response_df get_flash_response_df
        get_image_index).image_index.accessN (n + 1)).call_count = 1)) :=
  ⟨lazyProperty_spec get_trial_response_df, lazyProperty_spec get_flash_response_df,
   lazyProperty_spec get_image_index⟩

/-- C5 witness: a concrete session whose trial_response_df loader
returns 7 — not called at construction, called once by access 3, with
the access returning 7. -/
theorem c5_witness :
    (ExtendedBehaviorSession.init (fun _ => (7 : Nat)) (fun _ => true)
      (fun _ => "a")).trial_response_df.call_count = 0 ∧
    ((ExtendedBehaviorSession.init (fun _ => (7 : Nat)) (fun _ => true)
      (fun _ => "a")).trial_response_df.accessN 3).access.1 = 7 ∧
    ((ExtendedBehaviorSession.init (fun _ => (7 : Nat)) (fun _ => true)
      (fun _ => "a")).trial_response_df.accessN 3).call_count = 1 :=
  ⟨(c5_lazy_memoization (fun _ => (7 : Nat)) (fun _ => true) (fun _ => "a")).1.1,
   (c5_lazy_memoization (fun _ => (7 : Nat)) (fun _ => true) (fun _ => "a")).1.2.1 3,
   (c5_lazy_memoization (fun _ => (7 : Nat)) (fun _ => true) (fun _ => "a")).1.2.2 2⟩

/-- C6: whenever `get_stimulus_presentations` succeeds, the returned
table has exactly the 18 final columns in order (with raw `index`
renamed to `absolute_flash_number` and `running_speed` renamed to
`mean_running_speed`), its index is renamed to `flash_id`, and the
extended table joined in had its `omitted` column dropped beforehand. -/
theorem c6_stimulus_presentations_schema (raw extended out : ColDF)
    (hout : get_stimulus_presentations raw extended = some out) :
    out.columns = ["image_name", "image_index", "start_time", "stop_time", "omitted",
      "change", "duration", "licks", "rewards", "mean_running_speed",
      "absolute_flash_number", "time_from_last_lick", "time_from_last_reward",
      "time_from_last_change", "block_index", "image_block_repetition",
      "repeat_within_block", "image_set"] ∧
    out.index_name = "flash_id" ∧
    ∀ extended2, df_drop extended ["omitted"] = some extended2 →
      "omitted" ∉ extended2.columns := by
  unfold get_stimulus_presentations at hout
  refine ⟨?_, ?_, ?_⟩
  case refine_3 =>
    intro extended2 hdrop2
    unfold df_drop at hdrop2
    split at hdrop2
    · have heq : extended2 = ⟨extended.index_name,
          extended.columns.filter fun c => ! ["omitted"].contains c⟩ :=
        (Option.some.inj hdrop2).symm
      subst heq
      simp [List.mem_filter]
    · exact Option.noConfusion hdrop2
  all_goals
    cases hdrop : df_drop extended ["omitted"] with
    | none => simp only [hdrop] at hout; exact Option.noConfusion hout
    | some extended2 =>
      simp only [hdrop] at hout
      cases hjoin : df_join raw extended2 with
      | none => simp only [hjoin] at hout; exact Option.noConfusion hout
      | some joined =>
        simp only [hjoin] at hout
        cases hsel : df_select joined stimulus_presentations_selection with
        | none => simp only [hsel] at hout; exact Option.noConfusion hout
        | some selected =>
          simp only [hsel] at hout
          unfold df_select at hsel
          split at hsel
          · have hseq : selected = ⟨joined.index_name, stimulus_presentations_selection⟩ :=
              (Option.some.inj hsel).symm
            subst hseq
            have houteq := (Option.some.inj hout).symm
            subst houteq
            rfl
          · exact Option.noConfusion hsel

/-- C6 witness: on a sample pair of schemas the reshaping yields exactly
the expected columns and the `flash_id` index. -/
theorem c6_witness :
    get_stimulus_presentations sampleRawStimDF sampleExtendedStimDF = some sampleStimDFOut ∧
    sampleStimDFOut.index_name = "flash_id" ∧
    sampleStimDFOut.columns = ["image_name", "image_index", "start_time", "stop_time",
      "omitted", "change", "duration", "licks", "rewards", "mean_running_speed",
      "absolute_flash_number", "time_from_last_lick", "time_from_last_reward",
      "time_from_last_change", "block_index", "image_block_repetition",
      "repeat_within_block", "image_set"] := by
  have h := c6_stimulus_presentations_schema sampleRawStimDF sampleExtendedStimDF
    sampleStimDFOut (by decide)
  exact ⟨by decide, h.2.1, h.1⟩

/-- C7: failure handling is limited to propagating the underlying
file-not-found error unchanged: `get_analysis_files_metadata` and
`from_json` turn a missing file into exactly
`FileNotFoundError(path)` with no recovery, retry or substitution, while
`__init__` with a `cache_paths` dict LACKING the
`analysis_files_metadata_path` key does not raise at all and stores
None; with the key present but the file missing, the FileNotFoundError
is propagated unchanged. -/
theorem c7_error_propagation {μ α : Type} (csv_fs : String → Option μ)
    (json_fs : String → Option α) :
    (∀ path, json_fs path = none →
      get_analysis_files_metadata json_fs path
        = Except.error (PyError.fileNotFound path)) ∧
    (∀ (paths_fs : String → Option (String → Option String)) (json_path : String),
      paths_fs json_path = none →
      BehaviorProjectCache.from_json csv_fs json_fs paths_fs json_path
        = Except.error (PyError.fileNotFound json_path)) ∧
    (∀ (cache_paths : String → Option String) (mp nwb afd : String) (m : μ),
      cache_paths "manifest_path" = some mp → csv_fs mp = some m →
      cache_paths "nwb_base_dir" = some nwb →
      cache_paths "analysis_files_base_dir" = some afd →
      cache_paths "analysis_files_metadata_path" = none →
      BehaviorProjectCache.init csv_fs json_fs cache_paths
        = Except.ok ⟨m, nwb, afd, none⟩) ∧
    (∀ (cache_paths : String → Option String) (mp nwb afd amp : String) (m : μ),
      cache_paths "manifest_path" = some mp → csv_fs mp = some m →
      cache_paths "nwb_base_dir" = some nwb →
      cache_paths "analysis_files_base_dir" = some afd →
      cache_paths "analysis_files_metadata_path" = some amp →
      json_fs amp = none →
      BehaviorProjectCache.init csv_fs json_fs cache_paths
        = Except.error (PyError.fileNotFound amp)) := by
  refine ⟨?_, ?_, ?_, ?_⟩
  · intro path h
    unfold get_analysis_files_metadata open_json
    rw [h]
  · intro paths_fs json_path h
    unfold BehaviorProjectCache.from_json
    rw [h]
  · intro cache_paths mp nwb afd m h1 h2 h3 h4 h5
    unfold BehaviorProjectCache.init
    simp only [h1, h2, h3, h4, h5]
  · intro cache_paths mp nwb afd amp m h1 h2 h3 h4 h5 h6
    unfold BehaviorProjectCache.init
    simp only [h1, h2, h3, h4, h5]
    unfold get_analysis_files_metadata open_json
    simp only [h6]

/-- C7 witness: a concrete cache_paths dict without the metadata key
constructs a cache with analysis_files_metadata = None, and a concrete
missing metadata file yields exactly FileNotFoundError of its path. -/
theorem c7_witness :
    BehaviorProjectCache.init sample_csv_fs sample_json_fs sample_cache_paths
      = Except.ok ⟨1, "/data/nwb", "/data/analysis", none⟩ ∧
    get_analysis_files_metadata sample_json_fs "/missing.json"
      = Except.error (PyError.fileNotFound "/missing.json") :=
  ⟨(c7_error_propagation sample_csv_fs sample_json_fs).2.2.1 sample_cache_paths
      "/data/manifest.csv" "/data/nwb" "/data/analysis" 1 rfl rfl rfl rfl rfl,
   (c7_error_propagation sample_csv_fs sample_json_fs).1 "/missing.json" rfl⟩

/-- C8: `get_task_parameters` always overrides
omitted_flash_fraction to 0.05 and stimulus_duration_sec to 0.25, and
leaves every other entry of the superclass result unchanged. -/
theorem c8_task_parameters_override (task_parameters : String → Option TaskValue) :
    get_task_parameters task_parameters "omitted_flash_fraction"
      = some (TaskValue.num (0.05 : ℚ)) ∧
    get_task_parameters task_parameters "stimulus_duration_sec"
      = some (TaskValue.num (0.25 : ℚ)) ∧
    ∀ k, k ≠ "omitted_flash_fraction" → k ≠ "stimulus_duration_sec" →
      get_task_parameters task_parameters k = task_parameters k := by
  refine ⟨?_, ?_, ?_⟩
  · unfold get_task_parameters dict_set
    rw [if_neg (by decide), if_pos rfl]
  · unfold get_task_parameters dict_set
    rw [if_pos rfl]
  · intro k h1 h2
    unfold get_task_parameters dict_set
    rw [if_neg h2, if_neg h1]

/-- C8 witness: with an empty superclass dict, the two overrides are
present and an unrelated key is still absent. -/
theorem c8_witness :
    get_task_parameters (fun _ => none) "omitted_flash_fraction"
      = some (TaskValue.num (0.05 : ℚ)) ∧
    get_task_parameters (fun _ => none) "stage" = none := by
  refine ⟨(c8_task_parameters_override (fun _ => none)).1, ?_⟩
  have h := (c8_task_parameters_override (fun _ => none)).2.2 "stage" (by decide) (by decide)
  simpa using h

end BehaviorProjectCachePy
